import Mathlib

/-!
Verification of the simulation cores of the rust-game-collection repository
(Conway's Game of Life, Snake, rotating cube) against its specification.

The Rust sources are shallowly embedded: `Vec<Vec<i8>>` grids become
`List (List Int)`, `f64` coordinates (which only ever hold integral values
produced by integer casts and plus/minus 1.0 steps) become `Int`, and the
`f64` cube scalars (produced from 0.25-granular accumulation) become `Rat`.
Trigonometric functions are abstracted as function parameters so that the
development stays computable; the theorems that need them only use
cos 0 = 1 and sin 0 = 0.
-/

set_option autoImplicit false

/-! ## Game of Life (src/game_of_life.rs) -/

/-- Read `current_generation[y][x]`; out-of-range reads (which Rust would
panic on, and which never occur under the loop bounds) default to 0. -/
def cellAt (g : List (List Int)) (y x : Nat) : Int :=
  (g.getD y []).getD x 0

/-- The list `[-1, 0, 1]` of offsets used by the neighbor-count loops
`for i in -1i16..=1 { for j in -1i16..=1 { ... } }`. -/
def offs : List Int := [-1, 0, 1]

/-- Embeds the neighbor-counting block of `Population::get_next_gen`
(game_of_life.rs lines 80-91): `live_neighbors` starts at `-cell_state` and
accumulates `current_generation[new_y][new_x]` for every offset pair whose
target satisfies `new_x > 0 && new_y > 0 && new_x < cols && new_y < rows`. -/
def liveNeighbors (g : List (List Int)) (cols rows : Nat) (x y : Nat) : Int :=
  -(cellAt g y x) +
    offs.foldl (fun acc i =>
      offs.foldl (fun acc j =>
        let nx : Int := (x : Int) + i
        let ny : Int := (y : Int) + j
        if 0 < nx ∧ 0 < ny ∧ nx < (cols : Int) ∧ ny < (rows : Int) then
          acc + cellAt g ny.toNat nx.toNat
        else acc) acc) 0

/-- Embeds the rule if-chain of `Population::get_next_gen`
(game_of_life.rs lines 93-108) for one cell. -/
def nextGenCell (g : List (List Int)) (cols rows : Nat) (x y : Nat) : Int :=
  let cs := cellAt g y x
  let n := liveNeighbors g cols rows x y
  if cs = 1 ∧ n < 2 then 0
  else if cs = 1 ∧ 3 < n then 0
  else if cs = 0 ∧ n = 3 then 1
  else cs

/-- The list of coordinates of alive cells, as pushed into
`dying_generation` (game_of_life.rs lines 113-119): pairs `(x, y)`. -/
def aliveCoords (g : List (List Int)) (cols rows : Nat) : List (Int × Int) :=
  (List.range rows).foldl (fun acc y =>
    (List.range cols).foldl (fun acc x =>
      if cellAt g y x = 1 then acc ++ [((x : Int), (y : Int))] else acc) acc) []

/-- The `Population` struct of game_of_life.rs (rendering color data aside). -/
structure Population where
  current : List (List Int)
  dying : List (Int × Int)
  ghost : List (Int × Int)
  cols : Nat
  rows : Nat
deriving DecidableEq

/-- Embeds `Population::get_next_gen` (game_of_life.rs lines 73-121): builds
the whole new generation from the old grid, demotes `dying` to `ghost`, and
records the old generation's alive cells as the new `dying` set. -/
def Population.getNextGen (p : Population) : Population :=
  { current := (List.range p.rows).map (fun y =>
      (List.range p.cols).map (fun x => nextGenCell p.current p.cols p.rows x y)),
    dying := aliveCoords p.current p.cols p.rows,
    ghost := p.dying,
    cols := p.cols,
    rows := p.rows }

/-- Embeds `Population::switch` (game_of_life.rs lines 123-125):
`current_generation[y][x] = 1 - current_generation[y][x]`. Rust panics when
the index is out of range; the embedding returns `none` there. -/
def Population.switchCell (p : Population) (x y : Nat) : Option Population :=
  if y < p.current.length ∧ x < (p.current.getD y []).length then
    some { p with current :=
      p.current.set y ((p.current.getD y []).set x (1 - cellAt p.current y x)) }
  else none

/-- The Conway rule table as the specification words it: alive with fewer
than 2 alive neighbors becomes dead, alive with more than 3 becomes dead,
dead with exactly 3 becomes alive, otherwise unchanged. -/
def conwaySpecRule (alive : Bool) (n : Int) : Bool :=
  if alive ∧ n < 2 then false
  else if alive ∧ 3 < n then false
  else if ¬alive ∧ n = 3 then true
  else alive

/-- The neighbor count as the specification words it: the number of alive
cells among the up-to-8 Moore neighbors `(x+i, y+j)`, `(i,j) ≠ (0,0)`, whose
coordinates satisfy `0 ≤ nx < cols` and `0 ≤ ny < rows`. -/
def mooreNeighborCount (g : List (List Int)) (cols rows : Nat) (x y : Nat) : Int :=
  offs.foldl (fun acc i =>
    offs.foldl (fun acc j =>
      let nx : Int := (x : Int) + i
      let ny : Int := (y : Int) + j
      if (i ≠ 0 ∨ j ≠ 0) ∧ 0 ≤ nx ∧ 0 ≤ ny ∧ nx < (cols : Int) ∧ ny < (rows : Int) ∧
          cellAt g ny.toNat nx.toNat = 1 then
        acc + 1
      else acc) acc) 0

/-- The cursor handlers of `run_gol` (game_of_life.rs lines 171-174).
Right: `if cursor.x < cols { cursor.x += 1 }`. -/
def cursorRight (cols x : Nat) : Nat := if x < cols then x + 1 else x

/-- Left: `if cursor.x > 0 { cursor.x -= 1 }`. -/
def cursorLeft (x : Nat) : Nat := if 0 < x then x - 1 else x

/-- Up: `if cursor.y < rows { cursor.y += 1 }`. -/
def cursorUp (rows y : Nat) : Nat := if y < rows then y + 1 else y

/-- Down: `if cursor.y > 0 { cursor.y -= 1 }`. -/
def cursorDown (y : Nat) : Nat := if 0 < y then y - 1 else y

/-- The initial cursor position from `Game::new`: `(cols/2, rows/2)`. -/
def initCursorX (cols : Nat) : Nat := cols / 2

/-! ## Snake (src/snake.rs) -/

/-- The `Direction` enum of snake.rs. -/
inductive Direction where
  | left
  | right
  | up
  | down
  | idle
deriving DecidableEq

/-- The head delta of the `match self.direction` block in `Snake::update`
(snake.rs lines 49-55): left is `x -= 1`, right `x += 1`, up `y += 1`,
down `y -= 1`, idle leaves the head unchanged. -/
def dirDelta : Direction → Int × Int
  | Direction.left => (-1, 0)
  | Direction.right => (1, 0)
  | Direction.up => (0, 1)
  | Direction.down => (0, -1)
  | Direction.idle => (0, 0)

/-- The `Snake` struct of snake.rs (the rendering-only `color` field is
omitted). The head is the last element of `body`, the tail the first. -/
structure Snake where
  body : List (Int × Int)
  direction : Direction
  dead : Bool
deriving DecidableEq

/-- `Snake::new(x, y)`: one-segment body, idle direction, alive. -/
def Snake.new (x y : Int) : Snake :=
  { body := [(x, y)], direction := Direction.idle, dead := false }

/-- The candidate head computed at the start of `Snake::update`: the current
head (`body.last().unwrap()`, defaulted for the never-occurring empty body)
plus the direction's unit delta. -/
def Snake.candidateHead (s : Snake) : Int × Int :=
  let hd := s.body.getLast?.getD (0, 0)
  (hd.1 + (dirDelta s.direction).1, hd.2 + (dirDelta s.direction).2)

/-- The collision condition of `Snake::update` (snake.rs line 57), checked
against the whole pre-move body:
`body.contains(&(x,y)) || !(0 <= x && x < cols) || !(0 <= y && y < rows)`. -/
def Snake.collides (s : Snake) (cols rows : Nat) : Prop :=
  s.candidateHead ∈ s.body ∨
    ¬(0 ≤ s.candidateHead.1 ∧ s.candidateHead.1 < (cols : Int)) ∨
    ¬(0 ≤ s.candidateHead.2 ∧ s.candidateHead.2 < (rows : Int))

instance (s : Snake) (cols rows : Nat) : Decidable (s.collides cols rows) := by
  unfold Snake.collides; infer_instance

/-- Embeds `Snake::update` (snake.rs lines 47-65). With a non-idle
direction: on collision set `dead` and reset the direction to idle; in every
non-idle case the tail (`body.remove(0)`) is removed and the candidate head
is pushed — also on the colliding move. -/
def Snake.update (s : Snake) (cols rows : Nat) : Snake :=
  if s.direction = Direction.idle then s
  else if s.collides cols rows then
    { body := s.body.drop 1 ++ [s.candidateHead],
      direction := Direction.idle, dead := true }
  else
    { body := s.body.drop 1 ++ [s.candidateHead],
      direction := s.direction, dead := s.dead }

/-- Embeds `Snake::go` (snake.rs lines 67-69): the direction is stored
unconditionally. -/
def Snake.go (s : Snake) (d : Direction) : Snake :=
  { s with direction := d }

/-- The per-session state of `run_snake`: the snake plus the apple
coordinate. -/
structure GameState where
  snake : Snake
  apple : Int × Int
deriving DecidableEq

/-- The postcondition of `summon_apple` (snake.rs lines 75-83): the apple is
sampled inside `[0, cols) × [0, rows)` and rejection-resampled until it is
not contained in the given body. -/
def appleOk (cols rows : Nat) (body : List (Int × Int)) (a : Int × Int) : Prop :=
  0 ≤ a.1 ∧ a.1 < (cols : Int) ∧ 0 ≤ a.2 ∧ a.2 < (rows : Int) ∧ a ∉ body

instance (cols rows : Nat) (body : List (Int × Int)) (a : Int × Int) :
    Decidable (appleOk cols rows body a) := by
  unfold appleOk; infer_instance

/-- One game-update tick of `run_snake` (snake.rs lines 157-163): if the
snake is not dead, run `Snake::update`; if the moved body contains the
apple, push the apple coordinate onto the body and replace the apple by the
freshly summoned `a'`. -/
def stepGame (cols rows : Nat) (g : GameState) (a' : Int × Int) : GameState :=
  if g.snake.dead then g
  else if g.apple ∈ (g.snake.update cols rows).body then
    { snake := { g.snake.update cols rows with
        body := (g.snake.update cols rows).body ++ [g.apple] },
      apple := a' }
  else
    { snake := g.snake.update cols rows, apple := g.apple }

/-- The initial snake of `run_snake`: `Snake::new(cols/2, rows/2)` with
truncating division. -/
def initSnake (cols rows : Nat) : Snake :=
  Snake.new ((cols / 2 : Nat) : Int) ((rows / 2 : Nat) : Int)

/-- The states reachable in `run_snake`: the initial snake with a valid
apple, direction changes (any key, stored unconditionally), game ticks with
a valid freshly summoned apple whenever one is consumed, and reset. -/
inductive Reach (cols rows : Nat) : GameState → Prop where
  | init (a : Int × Int) :
      appleOk cols rows (initSnake cols rows).body a →
      Reach cols rows ⟨initSnake cols rows, a⟩
  | go (g : GameState) (d : Direction) :
      Reach cols rows g →
      Reach cols rows ⟨g.snake.go d, g.apple⟩
  | tick (g : GameState) (a' : Int × Int) :
      Reach cols rows g →
      (g.apple ∈ (g.snake.update cols rows).body →
        appleOk cols rows ((g.snake.update cols rows).body ++ [g.apple]) a') →
      Reach cols rows (stepGame cols rows g a')
  | reset (g : GameState) (a : Int × Int) :
      Reach cols rows g →
      appleOk cols rows (initSnake cols rows).body a →
      Reach cols rows ⟨initSnake cols rows, a⟩

/-! ## Cube (src/cube.rs) -/

/-- The `Cube` struct of cube.rs. The `f64` scalars are embedded as exact
rationals (all values arising in the program are 0.25-granular sums). -/
structure Cube where
  theta : Rat
  theta_speed : Rat
  sigma : Rat
  sigma_speed : Rat
  verticies : List (Rat × Rat × Rat)
  scheme : List (Nat × Nat)
deriving DecidableEq

/-- `Cube::new` (cube.rs lines 28-51): half-extent 30 cube vertices and the
12-edge wireframe scheme. -/
def Cube.new : Cube :=
  { theta := 0, theta_speed := 0, sigma := 0, sigma_speed := 0,
    verticies := [
      (-30, -30, -30), (30, -30, -30), (30, 30, -30), (-30, 30, -30),
      (-30, -30, 30), (30, -30, 30), (30, 30, 30), (-30, 30, 30)],
    scheme := [
      (0, 1), (1, 2), (2, 3), (3, 0),
      (4, 5), (5, 6), (6, 7), (7, 4),
      (0, 4), (1, 5), (2, 6), (3, 7)] }

/-- A drawable line as built by `Cube::rotation` (the rendering-only color
field is omitted). -/
structure Line2 where
  x1 : Rat
  x2 : Rat
  y1 : Rat
  y2 : Rat
deriving DecidableEq

/-- Embeds `Cube::rotation` (cube.rs lines 53-81). The composed maps
degrees-to-cosine-of-radians and degrees-to-sine-of-radians are abstracted
as the parameters `cs` and `sn` (the code computes
`self.theta.to_radians().cos()` etc. on `f64`). Each vertex is rotated
about one axis by theta (acting on y, z), then about a second axis by sigma
(acting on x, z); each scheme edge then yields a line whose endpoints are
the rotated x, y coordinates translated by the origin. -/
def Cube.rotation (c : Cube) (cs sn : Rat → Rat) (ox oy : Rat) : List Line2 :=
  let temp := c.verticies.map (fun v =>
    let x := v.1
    let y := v.2.1
    let z := v.2.2
    let y1 := y * cs c.theta - z * sn c.theta
    let z1 := y * sn c.theta + z * cs c.theta
    (x * cs c.sigma + z1 * sn c.sigma, y1, -x * sn c.sigma + z1 * cs c.sigma))
  c.scheme.map (fun e =>
    let v1 := temp.getD e.1 (0, 0, 0)
    let v2 := temp.getD e.2 (0, 0, 0)
    { x1 := v1.1 + ox, x2 := v2.1 + ox, y1 := v1.2.1 + oy, y2 := v2.2.1 + oy })

/-- `Cube::reset` (cube.rs lines 83-88): zero the two angles and the two
angular speeds; geometry is untouched. -/
def Cube.reset (c : Cube) : Cube :=
  { c with theta := 0, theta_speed := 0, sigma := 0, sigma_speed := 0 }

/-- The keys handled inside `run_cube`. -/
inductive CubeKey where
  | reset
  | left
  | right
  | up
  | down
deriving DecidableEq

/-- The input handler of `run_cube` (cube.rs lines 136-144): reset key calls
`Cube::reset`, arrows adjust the angular speeds by plus or minus 0.25;
`none` models an iteration in which no event arrived before the timeout. -/
def Cube.applyKey (c : Cube) : Option CubeKey → Cube
  | none => c
  | some CubeKey.reset => c.reset
  | some CubeKey.left => { c with sigma_speed := c.sigma_speed + 1/4 }
  | some CubeKey.right => { c with sigma_speed := c.sigma_speed - 1/4 }
  | some CubeKey.up => { c with theta_speed := c.theta_speed + 1/4 }
  | some CubeKey.down => { c with theta_speed := c.theta_speed - 1/4 }

/-- One iteration of the `run_cube` loop (cube.rs lines 102-152), with the
elapsed milliseconds since the last tick abstracted as `elapsed`: first
`theta += theta_speed; sigma += sigma_speed` at the top of the loop (lines
103-104), then rendering (no state change), then the input handler, and
finally the tick check (lines 149-151), which only resets the elapsed-time
counter when `elapsed >= 400` and mutates nothing else. Returns the new
cube state and the new elapsed-time counter. -/
def cubeLoopIter (c : Cube) (k : Option CubeKey) (elapsed : Nat) : Cube × Nat :=
  let c1 := { c with theta := c.theta + c.theta_speed,
                     sigma := c.sigma + c.sigma_speed }
  let c2 := c1.applyKey k
  (c2, if 400 ≤ elapsed then 0 else elapsed)

/-! ## Helper lemmas -/

/-- Indexing a mapped range with a safe index evaluates the function. -/
theorem getD_range_map {α : Type} (f : Nat → α) (n i : Nat) (d : α) (hi : i < n) :
    ((List.range n).map f).getD i d = f i := by
  rw [List.getD_eq_getElem?_getD, List.getElem?_map, List.getElem?_range hi]
  rfl

/-! ## Claim theorems: Game of Life -/

/-- C1: for every in-range cell of a binary grid, the next generation's
state equals the Conway rule table (as the spec words it) applied to the
cell's old state and to the code's alive-neighbor count; the right-hand
side depends only on the old generation, so the whole new generation is
computed from the old generation only. -/
theorem life_step_follows_conway_rule (p : Population) (x y : Nat)
    (hx : x < p.cols) (hy : y < p.rows)
    (hcell : cellAt p.current y x = 0 ∨ cellAt p.current y x = 1) :
    cellAt (p.getNextGen).current y x =
      (if conwaySpecRule (decide (cellAt p.current y x = 1))
          (liveNeighbors p.current p.cols p.rows x y) then 1 else 0) := by
  have h1 : cellAt (p.getNextGen).current y x =
      nextGenCell p.current p.cols p.rows x y := by
    unfold Population.getNextGen cellAt
    rw [getD_range_map _ _ _ _ hy, getD_range_map _ _ _ _ hx]
  rw [h1]
  rcases hcell with h | h <;>
    · simp only [nextGenCell, conwaySpecRule, h]
      norm_num
      try split_ifs <;> omega

/-- Witness for C1 at a concrete grid and cell. -/
theorem life_step_follows_conway_rule_witness :
    (0 < 2) ∧ (0 < 2) ∧
    (cellAt [[1, 0], [0, 0]] 0 0 = 0 ∨ cellAt [[1, 0], [0, 0]] 0 0 = 1) ∧
    cellAt (Population.getNextGen ⟨[[1, 0], [0, 0]], [], [], 2, 2⟩).current 0 0 =
      (if conwaySpecRule (decide (cellAt [[1, 0], [0, 0]] 0 0 = 1))
          (liveNeighbors [[1, 0], [0, 0]] 2 2 0 0) then 1 else 0) :=
  ⟨by decide, by decide, by decide,
    life_step_follows_conway_rule ⟨[[1, 0], [0, 0]], [], [], 2, 2⟩ 0 0
      (by decide) (by decide) (by decide)⟩

/-- C2: the alive-neighbor count of `get_next_gen` uses the asymmetric
bound `new_x > 0 && new_y > 0` rather than `new_x >= 0 && new_y >= 0`, so
row 0 and column 0 are never counted. At cell (1,1) of a 2-by-2 grid whose
only alive cell is (0,0), the code counts 0 alive neighbors while the
specification's Moore count (coordinates counted iff `0 <= c < dim`) is
1. -/
theorem life_neighbor_count_excludes_index_zero :
    liveNeighbors [[1, 0], [0, 0]] 2 2 1 1 = 0 ∧
    mooreNeighborCount [[1, 0], [0, 0]] 2 2 1 1 = 1 := by decide

/-- C7: the cursor of `run_gol` starts in range (`cols/2` for `cols = 2` is
1), but the Right-arrow guard `cursor.x < cols` lets the cursor step to
`x = cols` itself, where the invariant `x < cols` fails and toggling the
cell indexes out of bounds (`none` models the Rust panic). -/
theorem life_cursor_escapes_grid :
    initCursorX 2 = 1 ∧ initCursorX 2 < 2 ∧
    cursorRight 2 (initCursorX 2) = 2 ∧ ¬(2 < 2) ∧
    Population.switchCell ⟨[[0, 0], [0, 0]], [], [], 2, 2⟩ 2 0 = none := by
  decide

/-- C9: a 2-by-2 block of alive cells touching row 0 and column 0 is not a
still life under the code: on a 2-by-2 grid with all four cells alive,
`get_next_gen` kills every cell (each block cell sees a count of 0 because
index 0 is excluded from neighbor counting). The same block placed away
from index 0 on a 4-by-4 grid is preserved, confirming the claim's intent
everywhere the asymmetric bound does not interfere. -/
theorem life_origin_block_not_still :
    (Population.getNextGen ⟨[[1, 1], [1, 1]], [], [], 2, 2⟩).current =
      [[0, 0], [0, 0]] ∧
    ([[0, 0], [0, 0]] : List (List Int)) ≠ [[1, 1], [1, 1]] ∧
    (Population.getNextGen
        ⟨[[0, 0, 0, 0], [0, 1, 1, 0], [0, 1, 1, 0], [0, 0, 0, 0]],
          [], [], 4, 4⟩).current =
      [[0, 0, 0, 0], [0, 1, 1, 0], [0, 1, 1, 0], [0, 0, 0, 0]] := by decide

/-! ## Claim theorems: Snake -/

/-- C5 (counterexample): `Snake::go` stores even the exact reverse of the
current direction — with current direction left, requesting right leaves
the stored direction right, not left, so the claimed no-op is false. -/
theorem snake_reverse_direction_counterexample :
    (Snake.go ⟨[(2, 2)], Direction.left, false⟩ Direction.right).direction =
      Direction.right ∧ Direction.right ≠ Direction.left := by decide

/-- C5 (amended): `Snake::go` stores the requested direction
unconditionally; no reversal check exists in the code. -/
theorem snake_go_stores_direction (s : Snake) (d : Direction) :
    (s.go d).direction = d := rfl

/-- C10: a move whose candidate head equals the current tail (the first
body element) is a self-collision: the `contains` check of `Snake::update`
runs against the whole body before `remove(0)` drops the tail, so the
snake dies even though the tail vacates that cell in the same step. -/
theorem snake_tail_collision_dies (s : Snake) (cols rows : Nat)
    (hdir : s.direction ≠ Direction.idle)
    (htail : s.body.head? = some s.candidateHead) :
    (s.update cols rows).dead = true := by
  have hmem : s.candidateHead ∈ s.body := by
    cases hb : s.body with
    | nil => rw [hb] at htail; simp at htail
    | cons a t =>
        rw [hb] at htail
        simp only [List.head?_cons, Option.some.injEq] at htail
        rw [← htail]
        exact List.mem_cons_self a t
  have hcol : s.collides cols rows := Or.inl hmem
  rw [Snake.update, if_neg hdir, if_pos hcol]

/-- Witness for C10: a 2-segment snake whose head at (3,2) moves left onto
its own tail at (2,2) and dies. -/
theorem snake_tail_collision_dies_witness :
    ((⟨[(2, 2), (3, 2)], Direction.left, false⟩ : Snake).direction ≠
      Direction.idle) ∧
    ((⟨[(2, 2), (3, 2)], Direction.left, false⟩ : Snake).body.head? =
      some (Snake.candidateHead ⟨[(2, 2), (3, 2)], Direction.left, false⟩)) ∧
    (Snake.update ⟨[(2, 2), (3, 2)], Direction.left, false⟩ 4 4).dead = true :=
  ⟨by decide, by decide,
    snake_tail_collision_dies ⟨[(2, 2), (3, 2)], Direction.left, false⟩ 4 4
      (by decide) (by decide)⟩

/-- C4 (counterexample): a fatal move does not leave the body in its
pre-collision configuration: the one-segment snake at (0,2) moving left out
of a 4-by-4 grid dies, but its body becomes [(-1,2)], not the pre-collision
[(0,2)] — the colliding coordinate is still pushed. -/
theorem snake_collision_counterexample :
    Snake.update ⟨[(0, 2)], Direction.left, false⟩ 4 4 =
      ⟨[(-1, 2)], Direction.idle, true⟩ ∧
    [((-1 : Int), (2 : Int))] ≠ [(0, 2)] := by decide

/-- C4 (amended): a fatal move (candidate head occupied or out of bounds)
sets dead, resets the direction to idle, and replaces the body by the
pre-collision body with its tail removed and the candidate head appended;
the body length is unchanged, but the body itself is mutated. -/
theorem snake_collision_sets_dead (s : Snake) (cols rows : Nat)
    (hdir : s.direction ≠ Direction.idle)
    (hcol : s.collides cols rows)
    (hne : s.body ≠ []) :
    (s.update cols rows).dead = true ∧
    (s.update cols rows).direction = Direction.idle ∧
    (s.update cols rows).body = s.body.drop 1 ++ [s.candidateHead] ∧
    (s.update cols rows).body.length = s.body.length := by
  rw [Snake.update, if_neg hdir, if_pos hcol]
  refine ⟨rfl, rfl, rfl, ?_⟩
  have hlen : 0 < s.body.length := List.length_pos.mpr hne
  simp only [List.length_append, List.length_drop, List.length_cons,
    List.length_nil]
  omega

/-- Witness for C4 at a concrete fatal move: head (1,2) moving up to (1,3)
leaves a 3-by-3 grid. -/
theorem snake_collision_sets_dead_witness :
    ((⟨[(1, 1), (1, 2)], Direction.up, false⟩ : Snake).direction ≠
      Direction.idle) ∧
    Snake.collides ⟨[(1, 1), (1, 2)], Direction.up, false⟩ 3 3 ∧
    ((⟨[(1, 1), (1, 2)], Direction.up, false⟩ : Snake).body ≠ []) ∧
    ((Snake.update ⟨[(1, 1), (1, 2)], Direction.up, false⟩ 3 3).dead = true ∧
     (Snake.update ⟨[(1, 1), (1, 2)], Direction.up, false⟩ 3 3).direction =
        Direction.idle ∧
     (Snake.update ⟨[(1, 1), (1, 2)], Direction.up, false⟩ 3 3).body =
        (⟨[(1, 1), (1, 2)], Direction.up, false⟩ : Snake).body.drop 1 ++
          [Snake.candidateHead ⟨[(1, 1), (1, 2)], Direction.up, false⟩] ∧
     (Snake.update ⟨[(1, 1), (1, 2)], Direction.up, false⟩ 3 3).body.length =
        (⟨[(1, 1), (1, 2)], Direction.up, false⟩ : Snake).body.length) :=
  ⟨by decide, by decide, by decide,
    snake_collision_sets_dead ⟨[(1, 1), (1, 2)], Direction.up, false⟩ 3 3
      (by decide) (by decide) (by decide)⟩

/-- Invariant of `run_snake` while the snake is alive: every coordinate
appears at most twice in the body, and the apple is never inside the body.
The bound is two, not one, because eating pushes the apple coordinate onto
a body whose head already sits on the apple. -/
theorem reach_body_inv (cols rows : Nat) (g : GameState)
    (hg : Reach cols rows g) :
    g.snake.dead = false →
      (∀ c, g.snake.body.count c ≤ 2) ∧ g.apple ∉ g.snake.body := by
  induction hg with
  | init a ha =>
      intro _
      refine ⟨fun c => ?_, ha.2.2.2.2⟩
      simp only [initSnake, Snake.new, List.count_cons, List.count_nil]
      split <;> omega
  | go g d hgr ih =>
      intro h
      exact ih h
  | reset g a hgr ha ih =>
      intro _
      refine ⟨fun c => ?_, ha.2.2.2.2⟩
      simp only [initSnake, Snake.new, List.count_cons, List.count_nil]
      split <;> omega
  | tick g a' hgr hfresh ih =>
      by_cases hd : g.snake.dead = true
      · rw [stepGame, if_pos hd]
        exact ih
      · have hda : g.snake.dead = false := by
          revert hd; cases g.snake.dead <;> simp
        obtain ⟨hcount, happle⟩ := ih hda
        by_cases hidle : g.snake.direction = Direction.idle
        · have hupd : g.snake.update cols rows = g.snake := by
            rw [Snake.update, if_pos hidle]
          have heat : g.apple ∉ (g.snake.update cols rows).body := by
            rw [hupd]; exact happle
          rw [stepGame, if_neg hd, if_neg heat, hupd]
          exact fun _ => ⟨hcount, happle⟩
        · by_cases hcol : g.snake.collides cols rows
          · have hupd : g.snake.update cols rows =
                ⟨g.snake.body.drop 1 ++ [g.snake.candidateHead],
                  Direction.idle, true⟩ := by
              rw [Snake.update, if_neg hidle, if_pos hcol]
            intro h'
            exfalso
            rw [stepGame, if_neg hd] at h'
            split_ifs at h' with he
            · rw [hupd] at h'
              simp at h'
            · rw [hupd] at h'
              simp at h'
          · have hupd : g.snake.update cols rows =
                ⟨g.snake.body.drop 1 ++ [g.snake.candidateHead],
                  g.snake.direction, g.snake.dead⟩ := by
              rw [Snake.update, if_neg hidle, if_neg hcol]
            have hcand : g.snake.candidateHead ∉ g.snake.body :=
              fun hm => hcol (Or.inl hm)
            have hcnt0 : g.snake.body.count g.snake.candidateHead = 0 :=
              List.count_eq_zero.mpr hcand
            have hdrople : ∀ c : Int × Int,
                (g.snake.body.drop 1).count c ≤ g.snake.body.count c :=
              fun c => (List.drop_sublist 1 g.snake.body).count_le c
            have hmoved_cand :
                (g.snake.body.drop 1 ++ [g.snake.candidateHead]).count
                  g.snake.candidateHead ≤ 1 := by
              rw [List.count_append]
              have h1 := hdrople g.snake.candidateHead
              have h2 : List.count g.snake.candidateHead
                  [g.snake.candidateHead] = 1 := by simp
              omega
            have hmoved : ∀ c,
                (g.snake.body.drop 1 ++ [g.snake.candidateHead]).count c ≤ 2 := by
              intro c
              rw [List.count_append]
              by_cases hc : c = g.snake.candidateHead
              · rw [hc]
                have h1 := hdrople g.snake.candidateHead
                have h2 : List.count g.snake.candidateHead
                    [g.snake.candidateHead] = 1 := by simp
                omega
              · have h2 : List.count c [g.snake.candidateHead] = 0 := by
                  simp [hc]
                have h1 := hdrople c
                have h3 := hcount c
                omega
            by_cases heat : g.apple ∈ (g.snake.update cols rows).body
            · have ha' := hfresh heat
              have happle_cand : g.apple = g.snake.candidateHead := by
                rw [hupd] at heat
                simp only at heat
                rcases List.mem_append.mp heat with hm | hm
                · exact absurd (List.mem_of_mem_drop hm) happle
                · simpa using hm
              have hstep : stepGame cols rows g a' =
                  ⟨⟨(g.snake.body.drop 1 ++ [g.snake.candidateHead]) ++
                      [g.apple], g.snake.direction, g.snake.dead⟩, a'⟩ := by
                rw [stepGame, if_neg hd, if_pos heat, hupd]
              intro _
              rw [hstep]
              refine ⟨fun c => ?_, ?_⟩
              · show ((g.snake.body.drop 1 ++ [g.snake.candidateHead]) ++
                    [g.apple]).count c ≤ 2
                rw [List.count_append]
                by_cases hc : c = g.apple
                · subst hc
                  rw [happle_cand] at *
                  have h2 : List.count g.snake.candidateHead
                      [g.snake.candidateHead] = 1 := by simp
                  omega
                · have h2 : List.count c [g.apple] = 0 := by simp [hc]
                  have h1 := hmoved c
                  omega
              · show a' ∉ (g.snake.body.drop 1 ++ [g.snake.candidateHead]) ++
                    [g.apple]
                have := ha'.2.2.2.2
                rw [hupd] at this
                exact this
            · have hstep : stepGame cols rows g a' =
                  ⟨g.snake.update cols rows, g.apple⟩ := by
                rw [stepGame, if_neg hd, if_neg heat]
              intro _
              rw [hstep]
              refine ⟨fun c => ?_, heat⟩
              rw [hupd]
              exact hmoved c

/-- C3 (counterexample): the one-segment snake at the center of a 4-by-4
grid heading right onto the apple at (3,2) reaches, after one game tick,
the body [(3,2), (3,2)] — the head coordinate appears twice, so body
coordinates are not pairwise distinct in every reachable state. -/
theorem snake_duplicate_body_counterexample :
    Reach 4 4 ⟨⟨[(3, 2), (3, 2)], Direction.right, false⟩, (0, 0)⟩ ∧
    ¬ List.Pairwise (fun a b => a ≠ b)
        [((3 : Int), (2 : Int)), ((3 : Int), (2 : Int))] := by
  constructor
  · have h0 : Reach 4 4 ⟨initSnake 4 4, (3, 2)⟩ :=
      Reach.init (3, 2) (by decide)
    have h1 : Reach 4 4 ⟨(initSnake 4 4).go Direction.right, (3, 2)⟩ :=
      Reach.go _ Direction.right h0
    have h2 := Reach.tick ⟨(initSnake 4 4).go Direction.right, (3, 2)⟩
      (0, 0) h1 (fun _ => by decide)
    have h3 : stepGame 4 4 ⟨(initSnake 4 4).go Direction.right, (3, 2)⟩
        (0, 0) = ⟨⟨[(3, 2), (3, 2)], Direction.right, false⟩, (0, 0)⟩ := by
      decide
    rw [h3] at h2
    exact h2
  · decide

/-- C3 (amended): in every reachable state in which the snake is alive,
each coordinate appears at most twice in the body (pairwise distinctness
fails only through the duplicate head pushed by food consumption). -/
theorem snake_reachable_count_le_two (cols rows : Nat) (g : GameState)
    (c : Int × Int) (hg : Reach cols rows g)
    (halive : g.snake.dead = false) :
    g.snake.body.count c ≤ 2 :=
  ((reach_body_inv cols rows g hg) halive).1 c

/-- Witness for the amended C3 at the initial state of a 4-by-4 game. -/
theorem snake_reachable_count_le_two_witness :
    Reach 4 4 ⟨initSnake 4 4, (0, 0)⟩ ∧
    ((⟨initSnake 4 4, (0, 0)⟩ : GameState).snake.dead = false) ∧
    (⟨initSnake 4 4, (0, 0)⟩ : GameState).snake.body.count (2, 2) ≤ 2 :=
  ⟨Reach.init (0, 0) (by decide), by decide,
    snake_reachable_count_le_two 4 4 ⟨initSnake 4 4, (0, 0)⟩ (2, 2)
      (Reach.init (0, 0) (by decide)) (by decide)⟩

/-! ## Claim theorems: Cube -/

/-- C6 (counterexample): the angle accumulation of `run_cube` sits at the
top of the loop, not inside the tick check: an iteration with elapsed time
0 (far below the 400 ms tick boundary) and no input still changes theta
whenever theta_speed is nonzero, so theta does change during a loop
iteration that is not a tick boundary. -/
theorem cube_theta_changes_without_tick :
    (0 : Nat) < 400 ∧
    (cubeLoopIter { Cube.new with theta_speed := 1 } none 0).1.theta ≠
      ({ Cube.new with theta_speed := 1 } : Cube).theta := by
  refine ⟨by omega, ?_⟩
  simp [cubeLoopIter, Cube.applyKey, Cube.new]

/-- C6 (amended): theta and sigma are incremented by theta_speed and
sigma_speed exactly once per loop (render) iteration, at the top of the
loop, regardless of the tick boundary; the tick check at 400 ms resets
only the elapsed-time counter. (A reset key zeroes the angles afterwards
and is the only input that touches them.) -/
theorem cube_accumulates_every_iteration (c : Cube) (k : Option CubeKey)
    (e : Nat) (hk : k ≠ some CubeKey.reset) :
    (cubeLoopIter c k e).1.theta = c.theta + c.theta_speed ∧
    (cubeLoopIter c k e).1.sigma = c.sigma + c.sigma_speed ∧
    (cubeLoopIter c k e).2 = (if 400 ≤ e then 0 else e) := by
  cases k with
  | none => exact ⟨rfl, rfl, rfl⟩
  | some kk =>
      cases kk with
      | reset => exact absurd rfl hk
      | left => exact ⟨rfl, rfl, rfl⟩
      | right => exact ⟨rfl, rfl, rfl⟩
      | up => exact ⟨rfl, rfl, rfl⟩
      | down => exact ⟨rfl, rfl, rfl⟩

/-- Witness for the amended C6 at a concrete cube and iteration. -/
theorem cube_accumulates_every_iteration_witness :
    ((none : Option CubeKey) ≠ some CubeKey.reset) ∧
    ((cubeLoopIter { Cube.new with theta_speed := 1 } none 7).1.theta =
      ({ Cube.new with theta_speed := 1 } : Cube).theta +
        ({ Cube.new with theta_speed := 1 } : Cube).theta_speed ∧
     (cubeLoopIter { Cube.new with theta_speed := 1 } none 7).1.sigma =
      ({ Cube.new with theta_speed := 1 } : Cube).sigma +
        ({ Cube.new with theta_speed := 1 } : Cube).sigma_speed ∧
     (cubeLoopIter { Cube.new with theta_speed := 1 } none 7).2 =
      (if 400 ≤ 7 then 0 else 7)) :=
  ⟨by simp,
    cube_accumulates_every_iteration { Cube.new with theta_speed := 1 }
      none 7 (by simp)⟩

/-- C8: after `reset`, a `rotation` call with origin (0, 0) produces, for
every scheme edge, the line joining the x, y coordinates of the original
model-space vertices: with both angles zero the two axis rotations are the
identity (using cos 0 = 1 and sin 0 = 0 for the abstracted trigonometric
maps) and the translation adds zero. -/
theorem cube_reset_projects_model_vertices (c : Cube) (cs sn : Rat → Rat)
    (hvert : c.verticies = Cube.new.verticies)
    (hsch : c.scheme = Cube.new.scheme)
    (hcs : cs 0 = 1) (hsn : sn 0 = 0) :
    (c.reset).rotation cs sn 0 0 =
      Cube.new.scheme.map (fun e =>
        { x1 := (Cube.new.verticies.getD e.1 (0, 0, 0)).1,
          x2 := (Cube.new.verticies.getD e.2 (0, 0, 0)).1,
          y1 := (Cube.new.verticies.getD e.1 (0, 0, 0)).2.1,
          y2 := (Cube.new.verticies.getD e.2 (0, 0, 0)).2.1 }) := by
  simp only [Cube.rotation, Cube.reset, hvert, hsch, hcs, hsn, Cube.new]
  norm_num

/-- Witness for C8 at the freshly constructed cube with the exact
trigonometric values at zero. -/
theorem cube_reset_projects_model_vertices_witness :
    (Cube.new.verticies = Cube.new.verticies) ∧
    (Cube.new.scheme = Cube.new.scheme) ∧
    ((fun _ : Rat => (1 : Rat)) 0 = 1) ∧
    ((fun _ : Rat => (0 : Rat)) 0 = 0) ∧
    (Cube.new.reset).rotation (fun _ => 1) (fun _ => 0) 0 0 =
      Cube.new.scheme.map (fun e =>
        { x1 := (Cube.new.verticies.getD e.1 (0, 0, 0)).1,
          x2 := (Cube.new.verticies.getD e.2 (0, 0, 0)).1,
          y1 := (Cube.new.verticies.getD e.1 (0, 0, 0)).2.1,
          y2 := (Cube.new.verticies.getD e.2 (0, 0, 0)).2.1 }) :=
  ⟨rfl, rfl, rfl, rfl,
    cube_reset_projects_model_vertices Cube.new (fun _ => 1) (fun _ => 0)
      rfl rfl rfl rfl⟩
